import Mathlib

/-!
Shallow embedding of `src/vmm/src/igvm/igvm_loader.rs` (cloud-hypervisor IGVM
loader): the directive interpreter of `load_igvm`, the parameter-area registry
(`import_parameter`), and the isolation commit pipeline (sort / group /
`import_isolated_pages` / `set_sev_control_register` / `complete_isolated_import`).

Modelling conventions:
- Machine integers (`u32`, `u64`, `usize`) are modelled as `Nat`; none of the
  arithmetic in this file can overflow in the source (addresses and sizes come
  from a parsed file and are divided or compared, never wrapped).
- Byte buffers (`Vec<u8>`, `&[u8]`) are `List Nat`.
- `panic!` / `todo!` / `assert!` / failing `expect` are the `fatal` outcome;
  `debug_assert!` aborts only when the `dbg` flag (debug-assertions build
  configuration) is set, mirroring Rust semantics where `debug_assert!` is
  compiled out in release builds.
- Recoverable `Err(...)` returns are the `err` outcome, carrying the state as
  the aborted call left it.
- The external collaborators (the `Loader` page-import sink,
  `verify_startup_memory_available`, the vCPU set and the hypervisor calls of
  the commit phase) are modelled as recorded events: the interpreter appends
  each call, with the exact arguments the source passes, to an event list.
  The guest-address-to-linear-address translation (`uaddrs`) is a pure
  collaborator lookup and is not modelled.
- The numeric page-type encodings follow the `kvm`+`sev_snp` configuration,
  whose values are literal in this file (Normal = 1, Vmsa = 2, Unmeasured = 4,
  Secrets = 5, Cpuid = 6).
-/

/-- Platform page size `HV_PAGE_SIZE` (0x1000). -/
def HV_PAGE_SIZE : Nat := 4096

/-- `ISOLATED_PAGE_SIZE` for the kvm/sev_snp configuration (0x1000). -/
def ISOLATED_PAGE_SIZE : Nat := 4096

/-- `ISOLATED_PAGE_SHIFT` for the kvm/sev_snp configuration. -/
def ISOLATED_PAGE_SHIFT : Nat := 12

/-- Little-endian byte serialization of a `u32` value. -/
def u32le (n : Nat) : List Nat :=
  [n % 256, n / 256 % 256, n / 65536 % 256, n / 16777216 % 256]

/-- Little-endian byte serialization of a `u64` value. -/
def u64le (n : Nat) : List Nat :=
  [n % 256, n / 256 % 256, n / 65536 % 256, n / 16777216 % 256,
   n / 4294967296 % 256, n / 1099511627776 % 256,
   n / 281474976710656 % 256, n / 72057594037927936 % 256]

/-- The `IsolatedPageType` enum (kvm + sev_snp configuration). -/
inductive IsolatedPageType where
  | Normal
  | Vmsa
  | Unmeasured
  | Secrets
  | Cpuid
deriving DecidableEq

/-- Numeric value of an `IsolatedPageType` (`as u32`), kvm configuration. -/
def IsolatedPageType.toU32 : IsolatedPageType → Nat
  | .Normal => 1
  | .Vmsa => 2
  | .Unmeasured => 4
  | .Secrets => 5
  | .Cpuid => 6

/-- The `GpaPages` record accumulated for the isolation commit pipeline. -/
structure GpaPages where
  gpa : Nat
  page_type : Nat
  page_size : Nat
deriving DecidableEq

instance : Inhabited GpaPages := ⟨⟨0, 0, 0⟩⟩

/-- The `BootPageAcceptance` policy passed to the page-import sink
(`crate::igvm` collaborator; variants as listed by the spec: exclusive,
exclusive-unmeasured, secrets, cpuid, vp-context). -/
inductive BootPageAcceptance where
  | Exclusive
  | ExclusiveUnmeasured
  | SecretsPage
  | CpuidPage
  | VpContext
deriving DecidableEq

/-- The `IgvmPageDataType` of a PageData directive (`igvm_defs` collaborator);
`OTHER` stands for every data type the loader does not support. -/
inductive IgvmPageDataType where
  | NORMAL
  | SECRETS
  | CPUID_DATA
  | OTHER
deriving DecidableEq

/-- The `ParameterAreaState` of one declared parameter area. -/
inductive ParameterAreaState where
  /-- Parameter area has been declared via a ParameterArea header. -/
  | Allocated (data : List Nat) (max_size : Nat)
  /-- Parameter area inserted and invalid to use. -/
  | Inserted
deriving DecidableEq

/-- Lookup in the parameter-area map (`HashMap<u32, ParameterAreaState>`
modelled as an association list keyed by the area index). -/
def lookupArea (m : List (Nat × ParameterAreaState)) (i : Nat) :
    Option ParameterAreaState :=
  match m with
  | [] => none
  | (k, v) :: rest => if k = i then some v else lookupArea rest i

/-- Store into the parameter-area map: replace the entry for `i`, or append a
new one. -/
def setArea (m : List (Nat × ParameterAreaState)) (i : Nat)
    (v : ParameterAreaState) : List (Nat × ParameterAreaState) :=
  match m with
  | [] => [(i, v)]
  | (k, w) :: rest => if k = i then (i, v) :: rest else (k, w) :: setArea rest i v

/-- The recoverable error enum `Error` of the loader. -/
inductive LoadError where
  | InvalidCommandLine
  | Igvm
  | InvalidIgvmFile
  | InvalidGuestMemmap
  | Loader
  | ParameterTooLarge
  | ImportIsolatedPages
  | CompleteIsolatedImport
  | FailedToDecodeHostData
  | SetVmsa
  | MemoryManager
deriving DecidableEq

/-- Outcome of one fallible, possibly-panicking step: `ok` and `err` carry the
state (`err` as the aborted call left it, since the source mutates in place and
returns early); `fatal` is a panic / `todo!` / failed assertion. -/
inductive StepOut (σ : Type) where
  | ok (s : σ)
  | err (e : LoadError) (s : σ)
  | fatal
deriving DecidableEq

/-- Sequencing of steps: a recoverable error propagates (the `?` operator), a
panic aborts everything. -/
def stepBind {σ : Type} : StepOut σ → (σ → StepOut σ) → StepOut σ
  | .ok s, f => f s
  | .err e s, _ => .err e s
  | .fatal, _ => .fatal

/-- Write `src` into `dst` at `off`
(`parameter_area[offset..end_of_parameter].copy_from_slice(parameter)`;
label used only when `off + src.length ≤ dst.length`). -/
def write_bytes (dst : List Nat) (off : Nat) (src : List Nat) : List Nat :=
  dst.take off ++ src ++ dst.drop (off + src.length)

/-- The `import_parameter` function: fill a previously declared parameter area
at the given byte offset, growing the buffer zero-padded; absent or
already-inserted areas panic, an overlarge parameter is the recoverable
`ParameterTooLarge` error. -/
def import_parameter (parameter_areas : List (Nat × ParameterAreaState))
    (parameter_area_index byte_offset : Nat) (parameter : List Nat) :
    StepOut (List (Nat × ParameterAreaState)) :=
  match lookupArea parameter_areas parameter_area_index with
  | none => .fatal
  | some .Inserted => .fatal
  | some (.Allocated data max_size) =>
    let offset := byte_offset
    let end_of_parameter := offset + parameter.length
    if max_size < end_of_parameter then
      .err .ParameterTooLarge parameter_areas
    else
      let grown :=
        if data.length < end_of_parameter then
          data ++ List.replicate (end_of_parameter - data.length) 0
        else data
      .ok (setArea parameter_areas parameter_area_index
            (.Allocated (write_bytes grown offset parameter) max_size))

/-- The `SnpCpuidFunc` structure declared inline in the CPUID_DATA arm. -/
structure SnpCpuidFunc where
  eax_in : Nat
  ecx_in : Nat
  xcr0_in : Nat
  xss_in : Nat
  eax : Nat
  ebx : Nat
  ecx : Nat
  edx : Nat
  reserved : Nat
deriving DecidableEq

/-- The `SnpCpuidInfo` structure declared inline in the CPUID_DATA arm
(count, two reserved fields, 64 entries). -/
structure SnpCpuidInfo where
  count : Nat
  reserved1 : Nat
  reserved2 : Nat
  entries : List SnpCpuidFunc
deriving DecidableEq

/-- Byte serialization (`zerocopy::AsBytes`) of one `SnpCpuidFunc` (48 bytes). -/
def snpCpuidFuncBytes (f : SnpCpuidFunc) : List Nat :=
  u32le f.eax_in ++ u32le f.ecx_in ++ u64le f.xcr0_in ++ u64le f.xss_in ++
  u32le f.eax ++ u32le f.ebx ++ u32le f.ecx ++ u32le f.edx ++ u64le f.reserved

/-- Byte serialization (`zerocopy::AsBytes`) of an `SnpCpuidInfo` (3088 bytes). -/
def snpCpuidInfoBytes (s : SnpCpuidInfo) : List Nat :=
  u32le s.count ++ u32le s.reserved1 ++ u64le s.reserved2 ++
  (s.entries.map snpCpuidFuncBytes).flatten

/-- The all-zero `SnpCpuidFunc` (`new_zeroed`). -/
def SnpCpuidFunc.zeroed : SnpCpuidFunc := ⟨0, 0, 0, 0, 0, 0, 0, 0, 0⟩

/-- The value written to every CPUID page: `SnpCpuidInfo::new_zeroed()` with
`count = 1`. -/
def canonicalSnpCpuidInfo : SnpCpuidInfo :=
  { count := 1, reserved1 := 0, reserved2 := 0,
    entries := List.replicate 64 SnpCpuidFunc.zeroed }

/-- The SNP ID block portion of the loaded-image record (field-for-field the
`SnpIdBlock` arm's copies; byte arrays as `List Nat`). -/
structure SnpIdBlock where
  compatibility_mask : Nat
  author_key_enabled : Nat
  reserved : List Nat
  ld : List Nat
  family_id : List Nat
  image_id : List Nat
  version : Nat
  guest_svn : Nat
  id_key_algorithm : Nat
  author_key_algorithm : Nat
  id_key_signature : List Nat
  id_public_key : List Nat
  author_key_signature : List Nat
  author_public_key : List Nat
deriving DecidableEq

/-- The zero-initialized ID block (`Box::<IgvmLoadedInfo>::default()`). -/
def SnpIdBlock.zeroed : SnpIdBlock :=
  ⟨0, 0, [], [], [], [], 0, 0, 0, 0, [], [], [], []⟩

/-- The `IgvmLoadedInfo` output record: required-memory guest addresses, the
VMSA guest address and snapshot (`SevVmsa` modelled by its byte serialization),
and the SNP ID block. -/
structure IgvmLoadedInfo where
  gpas : List Nat
  vmsa_gpa : Nat
  vmsa : List Nat
  snp_id_block : SnpIdBlock
deriving DecidableEq

/-- Default-valued output record. -/
def IgvmLoadedInfo.init : IgvmLoadedInfo := ⟨[], 0, [], SnpIdBlock.zeroed⟩

/-- One call into an external collaborator made during interpretation:
`Loader::import_pages(page_base, page_count, acceptance, data)` and
`Loader::verify_startup_memory_available(page_base, page_count, Ram)`. -/
inductive SinkEvent where
  | importPages (page_base : Nat) (page_count : Nat)
      (acceptance : BootPageAcceptance) (data : List Nat)
  | verifyStartupMemoryAvailable (page_base : Nat) (page_count : Nat)
deriving DecidableEq

/-- The directive stream variants (`IgvmDirectiveHeader`), with exactly the
fields the loader reads; parameter directives carry the
`IGVM_VHS_PARAMETER` pair (area index, byte offset). -/
inductive Directive where
  | PageData (gpa : Nat) (compatibility_mask : Nat) (flags_unmeasured : Bool)
      (data_type : IgvmPageDataType) (data : List Nat)
  | ParameterArea (number_of_bytes : Nat) (parameter_area_index : Nat)
      (initial_data : List Nat)
  | VpCount (parameter_area_index : Nat) (byte_offset : Nat)
  | MmioRanges
  | MemoryMap (parameter_area_index : Nat) (byte_offset : Nat)
  | CommandLine (parameter_area_index : Nat) (byte_offset : Nat)
  | RequiredMemory (gpa : Nat) (compatibility_mask : Nat) (number_of_bytes : Nat)
  | SnpVpContext (gpa : Nat) (compatibility_mask : Nat) (vp_index : Nat)
      (vmsa : List Nat)
  | SnpIdBlock (compatibility_mask : Nat) (author_key_enabled : Nat)
      (reserved : List Nat) (ld : List Nat) (family_id : List Nat)
      (image_id : List Nat) (version : Nat) (guest_svn : Nat)
      (id_key_algorithm : Nat) (author_key_algorithm : Nat)
      (id_key_signature : List Nat) (id_public_key : List Nat)
      (author_key_signature : List Nat) (author_public_key : List Nat)
  | X64VbsVpContext (compatibility_mask : Nat)
  | VbsMeasurement (compatibility_mask : Nat)
  | ParameterInsert (gpa : Nat) (compatibility_mask : Nat)
      (parameter_area_index : Nat)
  | ErrorRange (compatibility_mask : Nat)
  | Other
deriving DecidableEq

/-- The `IgvmDirectiveHeader::compatibility_mask()` accessor of the igvm crate:
`some` for variants that declare a mask, `none` for parameter directives and
the legacy variants without one. -/
def Directive.compatibility_mask? : Directive → Option Nat
  | .PageData _ m _ _ _ => some m
  | .ParameterArea _ _ _ => none
  | .VpCount _ _ => none
  | .MmioRanges => none
  | .MemoryMap _ _ => none
  | .CommandLine _ _ => none
  | .RequiredMemory _ m _ => some m
  | .SnpVpContext _ m _ _ => some m
  | .SnpIdBlock m _ _ _ _ _ _ _ _ _ _ _ _ _ => some m
  | .X64VbsVpContext m => some m
  | .VbsMeasurement m => some m
  | .ParameterInsert _ m _ => some m
  | .ErrorRange m => some m
  | .Other => none

/-- Fixed inputs of one `load_igvm` run: whether `debug_assert!` is compiled in,
the platform compatibility mask, the vCPU count, the command line bytes with
their terminating nul (`CString::as_bytes_with_nul`), and the serialized
memory-map parameter (synthesized from the external memory-layout
collaborator). -/
structure LoadCtx where
  dbg : Bool
  mask : Nat
  proc_count : Nat
  cmdline : List Nat
  memmap_bytes : List Nat
deriving DecidableEq

/-- Mutable state of the directive interpreter: the parameter-area registry,
the accumulated `GpaPages` commit list, the output record, and the recorded
collaborator calls in order. -/
structure LoadSt where
  parameter_areas : List (Nat × ParameterAreaState)
  gpas : List GpaPages
  loaded_info : IgvmLoadedInfo
  sink : List SinkEvent
deriving DecidableEq

/-- Interpreter state at the top of the directive loop. -/
def LoadSt.init : LoadSt := ⟨[], [], IgvmLoadedInfo.init, []⟩

/-- Page record and acceptance chosen by the PageData type match (the `gpas.push`
and the value of `acceptance`); `none` is the unsupported-type `todo!`. -/
def pageDataClass (gpa : Nat) (flags_unmeasured : Bool) :
    IgvmPageDataType → Option (GpaPages × BootPageAcceptance)
  | .NORMAL =>
    if flags_unmeasured then
      some (⟨gpa, IsolatedPageType.Unmeasured.toU32, ISOLATED_PAGE_SIZE⟩,
            .ExclusiveUnmeasured)
    else
      some (⟨gpa, IsolatedPageType.Normal.toU32, ISOLATED_PAGE_SIZE⟩, .Exclusive)
  | .SECRETS =>
    some (⟨gpa, IsolatedPageType.Secrets.toU32, ISOLATED_PAGE_SIZE⟩, .SecretsPage)
  | .CPUID_DATA =>
    some (⟨gpa, IsolatedPageType.Cpuid.toU32, ISOLATED_PAGE_SIZE⟩, .CpuidPage)
  | .OTHER => none

/-- Route an `import_parameter` call through the interpreter state. -/
def applyImportParameter (st : LoadSt) (idx off : Nat) (bytes : List Nat) :
    StepOut LoadSt :=
  match import_parameter st.parameter_areas idx off bytes with
  | .ok areas => .ok { st with parameter_areas := areas }
  | .err e areas => .err e { st with parameter_areas := areas }
  | .fatal => .fatal

/-- One iteration of the directive loop of `load_igvm`: the compatibility-mask
`debug_assert!`, then the match on the directive header. -/
def processDirective (ctx : LoadCtx) (st : LoadSt) (d : Directive) :
    StepOut LoadSt :=
  if ctx.dbg ∧ ¬(d.compatibility_mask?.getD ctx.mask &&& ctx.mask = ctx.mask)
  then .fatal
  else
    match d with
    | .PageData gpa _ flags_unmeasured data_type data =>
      if ctx.dbg ∧ ¬(data.length % HV_PAGE_SIZE = 0) then .fatal
      else if ¬(data.length = HV_PAGE_SIZE ∨ data.length = 0) then .fatal
      else
        match pageDataClass gpa flags_unmeasured data_type with
        | none => .fatal
        | some (r, acceptance) =>
          let payload :=
            if data_type = .CPUID_DATA then snpCpuidInfoBytes canonicalSnpCpuidInfo
            else data
          .ok { st with
                gpas := st.gpas ++ [r],
                sink := st.sink ++
                  [.importPages (gpa / HV_PAGE_SIZE) 1 acceptance payload] }
    | .ParameterArea number_of_bytes parameter_area_index initial_data =>
      if ctx.dbg ∧ ¬(number_of_bytes % HV_PAGE_SIZE = 0) then .fatal
      else if ctx.dbg ∧
          ¬(initial_data = [] ∨ initial_data.length = number_of_bytes) then .fatal
      else if (lookupArea st.parameter_areas parameter_area_index).isSome then
        .fatal
      else
        .ok { st with
              parameter_areas := setArea st.parameter_areas parameter_area_index
                (.Allocated initial_data number_of_bytes) }
    | .VpCount idx off => applyImportParameter st idx off (u32le ctx.proc_count)
    | .MmioRanges => .fatal
    | .MemoryMap idx off => applyImportParameter st idx off ctx.memmap_bytes
    | .CommandLine idx off => applyImportParameter st idx off ctx.cmdline
    | .RequiredMemory gpa _ number_of_bytes =>
      .ok { st with
            loaded_info :=
              { st.loaded_info with gpas := st.loaded_info.gpas ++ [gpa] },
            sink := st.sink ++
              [.verifyStartupMemoryAvailable (gpa / HV_PAGE_SIZE)
                (number_of_bytes / HV_PAGE_SIZE)] }
    | .SnpVpContext gpa _ vp_index vmsa =>
      if ¬(gpa % HV_PAGE_SIZE = 0) then .fatal
      else if HV_PAGE_SIZE < vmsa.length then .fatal
      else
        .ok { st with
              loaded_info :=
                { st.loaded_info with vmsa_gpa := gpa, vmsa := vmsa },
              sink :=
                if vp_index = 0 then
                  st.sink ++ [.importPages (gpa / HV_PAGE_SIZE) 1 .VpContext
                    (vmsa ++ List.replicate (HV_PAGE_SIZE - vmsa.length) 0)]
                else st.sink,
              gpas := st.gpas ++
                [⟨gpa, IsolatedPageType.Vmsa.toU32, ISOLATED_PAGE_SIZE⟩] }
    | .SnpIdBlock m ake rsvd ld fid iid ver svn ika aka iks ipk aks apk =>
      .ok { st with
            loaded_info :=
              { st.loaded_info with
                snp_id_block :=
                  ⟨m, ake, rsvd, ld, fid, iid, ver, svn, ika, aka, iks, ipk,
                   aks, apk⟩ } }
    | .X64VbsVpContext _ => .fatal
    | .VbsMeasurement _ => .fatal
    | .ParameterInsert gpa _ parameter_area_index =>
      if ctx.dbg ∧ ¬(gpa % HV_PAGE_SIZE = 0) then .fatal
      else
        match lookupArea st.parameter_areas parameter_area_index with
        | none => .fatal
        | some .Inserted => .fatal
        | some (.Allocated data max_size) =>
          .ok { st with
                sink := st.sink ++
                  [.importPages (gpa / HV_PAGE_SIZE) (max_size / HV_PAGE_SIZE)
                    .ExclusiveUnmeasured data],
                parameter_areas :=
                  setArea st.parameter_areas parameter_area_index .Inserted,
                gpas := st.gpas ++
                  [⟨gpa, IsolatedPageType.Unmeasured.toU32, ISOLATED_PAGE_SIZE⟩] }
    | .ErrorRange _ => .fatal
    | .Other => .fatal

/-- The directive loop: left fold of `processDirective` over the stream. -/
def interpretDirectives (ctx : LoadCtx) (st : LoadSt) (ds : List Directive) :
    StepOut LoadSt :=
  ds.foldl (fun r d => stepBind r (fun s => processDirective ctx s d)) (.ok st)

/-- The commit-phase sort: `gpas.sort_by(|a, b| a.gpa.cmp(&b.gpa))`, a stable
ascending sort on the guest physical address. -/
def sortGpas (gpas : List GpaPages) : List GpaPages :=
  gpas.mergeSort (fun a b => decide (a.gpa ≤ b.gpa))

/-- One step of the grouping fold: append to the last group when its first
record has the same page type, otherwise open a new group. -/
def groupStep (acc : List (List GpaPages)) (x : GpaPages) :
    List (List GpaPages) :=
  match acc.getLast? with
  | some (y :: ys) =>
    if y.page_type = x.page_type then acc.dropLast ++ [(y :: ys) ++ [x]]
    else acc ++ [[x]]
  | some [] => acc ++ [[x]]
  | none => acc ++ [[x]]

/-- The grouping fold of the commit pipeline (`gpas.iter().fold(Vec::new(), ...)`). -/
def groupPages (s : List GpaPages) : List (List GpaPages) :=
  s.foldl groupStep []

/-- `gpas_grouped`: the sorted records partitioned into same-page-type runs. -/
def gpas_grouped (gpas : List GpaPages) : List (List GpaPages) :=
  groupPages (sortGpas gpas)

/-- Page type of a group, read from its first record (`group[0].page_type`;
every group produced by `groupPages` is nonempty). -/
def gtype (g : List GpaPages) : Nat := (g.headD default).page_type

/-- One call of the commit phase into the vCPU set or the hypervisor. -/
inductive CommitEvent where
  | importIsolatedPages (page_type : Nat) (page_size : Nat) (pfns : List Nat)
  | setSevControlRegister (vp : Nat) (value : Nat)
  | completeIsolatedImport (id_block : SnpIdBlock) (host_data : List Nat)
      (vmsa_count : Nat)
deriving DecidableEq

/-- The batched import call issued for one group:
`import_isolated_pages(group[0].page_type, ISOLATED_PAGE_SIZE, pfns, uaddrs)`
with `pfns = group.map(|g| g.gpa >> ISOLATED_PAGE_SHIFT)`. -/
def commitImportEvent (g : List GpaPages) : CommitEvent :=
  .importIsolatedPages (gtype g) ISOLATED_PAGE_SIZE
    (g.map (fun r => r.gpa >>> ISOLATED_PAGE_SHIFT))

/-- The full ordered call trace of the commit phase: one batched import per
group, then `set_sev_control_register(0)` on every vCPU, then
`complete_isolated_import(id_block, host_data, 1)`. -/
def commitTrace (gpas : List GpaPages) (proc_count : Nat) (id_block : SnpIdBlock)
    (host_data : List Nat) : List CommitEvent :=
  ((gpas_grouped gpas).map commitImportEvent) ++
  ((List.range proc_count).map (fun vp => .setSevControlRegister vp 0)) ++
  [.completeIsolatedImport id_block host_data 1]

/-- End-to-end: interpret the stream, and when interpretation succeeds produce
the commit-phase trace (the sev_snp block of `load_igvm`). -/
def loadCommitTrace (ctx : LoadCtx) (ds : List Directive) (host_data : List Nat) :
    Option (List CommitEvent) :=
  match interpretDirectives ctx LoadSt.init ds with
  | .ok st =>
    some (commitTrace st.gpas ctx.proc_count st.loaded_info.snp_id_block host_data)
  | .err _ _ => none
  | .fatal => none

/-- Import-call recognizer on commit events. -/
def CommitEvent.isImport : CommitEvent → Bool
  | .importIsolatedPages _ _ _ => true
  | _ => false

/-- Register-write recognizer on commit events. -/
def CommitEvent.isSevControlWrite : CommitEvent → Bool
  | .setSevControlRegister _ _ => true
  | _ => false

/-- Finalize-call recognizer on commit events. -/
def CommitEvent.isComplete : CommitEvent → Bool
  | .completeIsolatedImport _ _ _ => true
  | _ => false

/-- Final VMSA snapshot and its guest address, when interpretation succeeds. -/
def finalVmsa : StepOut LoadSt → Option (List Nat × Nat)
  | .ok st => some (st.loaded_info.vmsa, st.loaded_info.vmsa_gpa)
  | .err _ _ => none
  | .fatal => none

/-- Invariant of the grouping accumulator: every group is nonempty, every
record in a group carries the group's page type, and consecutive groups have
different page types. -/
def GroupsWF (acc : List (List GpaPages)) : Prop :=
  (∀ g ∈ acc, g ≠ []) ∧ (∀ g ∈ acc, ∀ x ∈ g, x.page_type = gtype g) ∧
  acc.Chain' (fun g1 g2 => gtype g1 ≠ gtype g2)

/-- Buffer produced by one successful fill: grow zero-padded to the write's
end if needed, then overwrite `[off, off + bs.length)` (the body of
`import_parameter` after its bound check). -/
def fillBuf (data : List Nat) (off : Nat) (bs : List Nat) : List Nat :=
  let grown :=
    if data.length < off + bs.length then
      data ++ List.replicate (off + bs.length - data.length) 0
    else data
  write_bytes grown off bs

/-- A sequence of fills against one parameter area, each through
`import_parameter`, stopping at the first error. -/
def runFills (areas : List (Nat × ParameterAreaState)) (idx : Nat)
    (fills : List (Nat × List Nat)) : StepOut (List (Nat × ParameterAreaState)) :=
  fills.foldl (fun r f => stepBind r (fun a => import_parameter a idx f.1 f.2))
    (.ok areas)

/-! ### Helper lemmas on the parameter-area map -/

theorem lookupArea_setArea_self (m : List (Nat × ParameterAreaState)) (i : Nat)
    (v : ParameterAreaState) : lookupArea (setArea m i v) i = some v := by
  induction m with
  | nil => simp [setArea, lookupArea]
  | cons p rest ih =>
    obtain ⟨k, w⟩ := p
    by_cases h : k = i <;> simp [setArea, lookupArea, h, ih]

theorem setArea_setArea (m : List (Nat × ParameterAreaState)) (i : Nat)
    (v w : ParameterAreaState) : setArea (setArea m i v) i w = setArea m i w := by
  induction m with
  | nil => simp [setArea]
  | cons p rest ih =>
    obtain ⟨k, u⟩ := p
    by_cases h : k = i <;> simp [setArea, h, ih]

theorem setArea_eq_of_lookup (m : List (Nat × ParameterAreaState)) (i : Nat)
    (v : ParameterAreaState) (h : lookupArea m i = some v) : setArea m i v = m := by
  induction m with
  | nil => simp [lookupArea] at h
  | cons p rest ih =>
    obtain ⟨k, u⟩ := p
    by_cases hk : k = i
    · subst hk
      simp [lookupArea] at h
      simp [setArea, h]
    · simp [lookupArea, hk] at h
      simp [setArea, hk, ih h]

/-! ### Canonical CPUID page bytes -/

theorem u64le_zero : u64le 0 = List.replicate 8 0 := by decide

theorem zeroed_func_bytes : snpCpuidFuncBytes SnpCpuidFunc.zeroed = List.replicate 48 0 := by
  decide

theorem u32le_one : u32le 1 = 1 :: List.replicate 3 0 := by decide

theorem u32le_zero : u32le 0 = List.replicate 4 0 := by decide

theorem canonical_cpuid_bytes_eq :
    snpCpuidInfoBytes canonicalSnpCpuidInfo = 1 :: List.replicate 3087 0 := by
  simp only [snpCpuidInfoBytes, canonicalSnpCpuidInfo, List.map_replicate,
    zeroed_func_bytes, List.flatten_replicate_replicate, u64le_zero, u32le_one,
    u32le_zero, List.cons_append]
  rw [← List.replicate_add, ← List.replicate_add, ← List.replicate_add]

/-! ### C3: CPUID page data is replaced by the canonical structure -/

/-- C3: for every PageData directive of type CPUID_DATA whose payload passes
the size assertion, the bytes handed to the page-import sink are the canonical
`SnpCpuidInfo` (count = 1, every other byte zero), and the conclusion does not
mention the directive's payload at all: the input bytes are never forwarded. -/
theorem cpuid_page_canonical (ctx : LoadCtx) (st : LoadSt)
    (gpa cmask : Nat) (flags : Bool) (data : List Nat)
    (hmask : cmask &&& ctx.mask = ctx.mask)
    (hlen : data.length = HV_PAGE_SIZE ∨ data.length = 0) :
    processDirective ctx st (.PageData gpa cmask flags .CPUID_DATA data) =
      .ok { st with
            gpas := st.gpas ++
              [⟨gpa, IsolatedPageType.Cpuid.toU32, ISOLATED_PAGE_SIZE⟩],
            sink := st.sink ++ [.importPages (gpa / HV_PAGE_SIZE) 1 .CpuidPage
              (snpCpuidInfoBytes canonicalSnpCpuidInfo)] }
  ∧ (snpCpuidInfoBytes canonicalSnpCpuidInfo).take 4 = u32le 1
  ∧ (∀ p, 4 ≤ p → p < 3088 →
      (snpCpuidInfoBytes canonicalSnpCpuidInfo)[p]? = some 0) := by
  refine ⟨?_, ?_, ?_⟩
  · rcases hlen with h | h <;>
      simp [processDirective, Directive.compatibility_mask?, hmask, h,
        pageDataClass, HV_PAGE_SIZE]
  · rw [canonical_cpuid_bytes_eq]; decide
  · intro p h4 hlt
    rw [canonical_cpuid_bytes_eq]
    match p, h4 with
    | q + 1, _ =>
      rw [List.getElem?_cons_succ, List.getElem?_replicate]
      rw [if_pos (by omega)]

/-- Witness for C3 at a concrete directive with a nonzero payload. -/
theorem cpuid_page_canonical_witness :
    processDirective ⟨true, 1, 1, [0], []⟩ LoadSt.init
        (.PageData 4096 1 false .CPUID_DATA []) =
      .ok { LoadSt.init with
            gpas := [⟨4096, IsolatedPageType.Cpuid.toU32, ISOLATED_PAGE_SIZE⟩],
            sink := [.importPages 1 1 .CpuidPage
              (snpCpuidInfoBytes canonicalSnpCpuidInfo)] }
  ∧ (snpCpuidInfoBytes canonicalSnpCpuidInfo).take 4 = u32le 1
  ∧ (∀ p, 4 ≤ p → p < 3088 →
      (snpCpuidInfoBytes canonicalSnpCpuidInfo)[p]? = some 0) :=
  cpuid_page_canonical ⟨true, 1, 1, [0], []⟩ LoadSt.init 4096 1 false []
    (by decide) (by decide)

/-! ### C4: overlarge parameter fill errors and leaves the registry untouched -/

/-- C4: an `import_parameter` call on an Allocated area with
`byte_offset + parameter.length > max_size` returns the ParameterTooLarge
error, and the registry state carried out of the call is exactly the registry
passed in: the area's buffer keeps its length and contents. -/
theorem import_parameter_too_large (areas : List (Nat × ParameterAreaState))
    (idx off : Nat) (bs data : List Nat) (max_size : Nat)
    (hlook : lookupArea areas idx = some (.Allocated data max_size))
    (hbig : max_size < off + bs.length) :
    import_parameter areas idx off bs = .err .ParameterTooLarge areas := by
  simp [import_parameter, hlook, hbig]

/-- Witness for C4: a 2-byte write at offset 3 of a 4-byte area. -/
theorem import_parameter_too_large_witness :
    import_parameter [(0, .Allocated [5] 4)] 0 3 [7, 7] =
      .err .ParameterTooLarge [(0, .Allocated [5] 4)] :=
  import_parameter_too_large [(0, .Allocated [5] 4)] 0 3 [7, 7] [5] 4
    (by decide) (by decide)

/-! ### C6: structural misuse of the parameter-area registry panics -/

/-- C6: re-declaring an existing area index, filling an absent or
already-inserted area (through any of the three parameter-fill directives),
and a ParameterInsert on an absent or already-inserted area, all abort the
load fatally rather than returning a recoverable error or doing nothing. -/
theorem registry_misuse_fatal (ctx : LoadCtx) (st : LoadSt)
    (idx n off gpa cmask : Nat) (init : List Nat) :
    ((lookupArea st.parameter_areas idx).isSome →
        processDirective ctx st (.ParameterArea n idx init) = .fatal)
  ∧ (lookupArea st.parameter_areas idx = none →
        processDirective ctx st (.VpCount idx off) = .fatal
      ∧ processDirective ctx st (.CommandLine idx off) = .fatal
      ∧ processDirective ctx st (.MemoryMap idx off) = .fatal
      ∧ processDirective ctx st (.ParameterInsert gpa cmask idx) = .fatal)
  ∧ (lookupArea st.parameter_areas idx = some .Inserted →
        processDirective ctx st (.VpCount idx off) = .fatal
      ∧ processDirective ctx st (.CommandLine idx off) = .fatal
      ∧ processDirective ctx st (.MemoryMap idx off) = .fatal
      ∧ processDirective ctx st (.ParameterInsert gpa cmask idx) = .fatal) := by
  refine ⟨fun h => ?_, fun h => ⟨?_, ?_, ?_, ?_⟩, fun h => ⟨?_, ?_, ?_, ?_⟩⟩ <;>
    simp only [processDirective, Directive.compatibility_mask?, Option.getD,
      Nat.and_self, applyImportParameter, import_parameter, h] <;>
    split_ifs <;> simp [h]

/-- Witness for C6 at a registry holding one inserted area 0 and nothing else. -/
theorem registry_misuse_fatal_witness :
    processDirective ⟨true, 1, 1, [0], []⟩
        ⟨[(0, .Inserted)], [], IgvmLoadedInfo.init, []⟩
        (.ParameterArea 4096 0 []) = .fatal
  ∧ processDirective ⟨true, 1, 1, [0], []⟩
        ⟨[(0, .Inserted)], [], IgvmLoadedInfo.init, []⟩
        (.VpCount 0 0) = .fatal
  ∧ processDirective ⟨true, 1, 1, [0], []⟩
        ⟨[(0, .Inserted)], [], IgvmLoadedInfo.init, []⟩
        (.ParameterInsert 4096 1 0) = .fatal
  ∧ processDirective ⟨true, 1, 1, [0], []⟩
        ⟨[(0, .Inserted)], [], IgvmLoadedInfo.init, []⟩
        (.CommandLine 3 0) = .fatal :=
  have h := registry_misuse_fatal ⟨true, 1, 1, [0], []⟩
    ⟨[(0, .Inserted)], [], IgvmLoadedInfo.init, []⟩ 0 4096 0 4096 1 []
  have h3 := registry_misuse_fatal ⟨true, 1, 1, [0], []⟩
    ⟨[(0, .Inserted)], [], IgvmLoadedInfo.init, []⟩ 3 4096 0 4096 1 []
  ⟨h.1 (by decide), (h.2.2 (by decide)).1, (h.2.2 (by decide)).2.2.2,
   (h3.2.1 (by decide)).2.1⟩

/-! ### C7: compatibility-mask mismatch (a debug_assert in the source) -/

/-- C7 counterexample: with debug assertions compiled out (`dbg = false`, the
release configuration), a directive whose compatibility mask 0 is not a
superset of the platform mask 1 is processed normally: the SnpIdBlock fields
are copied into the output record and the load does not fail. -/
theorem mask_mismatch_release_processed :
    ¬((0 : Nat) &&& 1 = 1)
  ∧ processDirective ⟨false, 1, 1, [0], []⟩ LoadSt.init
      (.SnpIdBlock 0 7 [] [1] [] [] 0 0 0 0 [] [] [] []) =
    .ok { LoadSt.init with
          loaded_info := { IgvmLoadedInfo.init with
            snp_id_block := ⟨0, 7, [], [1], [], [], 0, 0, 0, 0, [], [], [], []⟩ } } := by
  constructor
  · decide
  · rfl

/-- C7 amended: when debug assertions are enabled, a directive whose declared
compatibility mask (platform mask for directives without one) is not a
superset match of the platform mask aborts the load fatally before the
directive is processed. -/
theorem mask_mismatch_debug_fatal (ctx : LoadCtx) (st : LoadSt) (d : Directive)
    (hdbg : ctx.dbg = true)
    (hmm : ¬(d.compatibility_mask?.getD ctx.mask &&& ctx.mask = ctx.mask)) :
    processDirective ctx st d = .fatal := by
  unfold processDirective
  rw [if_pos ⟨by simp [hdbg], hmm⟩]

/-- Witness for the amended C7 at a PageData directive with mask 0 against
platform mask 1. -/
theorem mask_mismatch_debug_fatal_witness :
    processDirective ⟨true, 1, 1, [0], []⟩ LoadSt.init
      (.PageData 0 0 false .NORMAL []) = .fatal :=
  mask_mismatch_debug_fatal ⟨true, 1, 1, [0], []⟩ LoadSt.init
    (.PageData 0 0 false .NORMAL []) (by decide) (by decide)

/-! ### C8: records entering the commit list per ParameterInsert -/

/-- C8 counterexample: a ParameterArea of max_size 8192 (two platform pages)
followed by its ParameterInsert imports 8192 / 4096 = 2 pages in the sink call,
yet appends exactly one GpaPages record, not one per page: the commit list
length is 1, not 2. -/
theorem parameter_insert_record_count_cex :
    interpretDirectives ⟨true, 1, 1, [0], []⟩ LoadSt.init
      [.ParameterArea 8192 0 [], .ParameterInsert 65536 1 0] =
    .ok ⟨[(0, .Inserted)], [⟨65536, 4, 4096⟩], IgvmLoadedInfo.init,
         [.importPages 16 2 .ExclusiveUnmeasured []]⟩
  ∧ (8192 : Nat) / HV_PAGE_SIZE = 2
  ∧ [(⟨65536, 4, 4096⟩ : GpaPages)].length = 1 := by
  refine ⟨by rfl, by decide, by decide⟩

/-- C8 amended: every ParameterInsert on an Allocated area appends exactly one
GpaPages record (type Unmeasured, at the insert's guest address), regardless of
how many pages (max_size / page_size) the accompanying sink import spans; the
commit list grows by one per insert directive, not by one per imported page. -/
theorem parameter_insert_one_record (ctx : LoadCtx) (st : LoadSt)
    (gpa cmask idx max_size : Nat) (data : List Nat)
    (hlook : lookupArea st.parameter_areas idx = some (.Allocated data max_size))
    (hmask : cmask &&& ctx.mask = ctx.mask)
    (halign : gpa % HV_PAGE_SIZE = 0) :
    processDirective ctx st (.ParameterInsert gpa cmask idx) =
      .ok { st with
            sink := st.sink ++ [.importPages (gpa / HV_PAGE_SIZE)
              (max_size / HV_PAGE_SIZE) .ExclusiveUnmeasured data],
            parameter_areas := setArea st.parameter_areas idx .Inserted,
            gpas := st.gpas ++
              [⟨gpa, IsolatedPageType.Unmeasured.toU32, ISOLATED_PAGE_SIZE⟩] } := by
  simp [processDirective, Directive.compatibility_mask?, hmask, halign, hlook]

/-- Witness for the amended C8 at a two-page area. -/
theorem parameter_insert_one_record_witness :
    processDirective ⟨true, 1, 1, [0], []⟩
        ⟨[(0, .Allocated [] 8192)], [], IgvmLoadedInfo.init, []⟩
        (.ParameterInsert 65536 1 0) =
      .ok { (⟨[(0, .Allocated [] 8192)], [], IgvmLoadedInfo.init, []⟩ : LoadSt) with
            sink := [.importPages 16 2 .ExclusiveUnmeasured []],
            parameter_areas := setArea [(0, .Allocated [] 8192)] 0 .Inserted,
            gpas := [⟨65536, IsolatedPageType.Unmeasured.toU32, ISOLATED_PAGE_SIZE⟩] } := by
  have h := parameter_insert_one_record ⟨true, 1, 1, [0], []⟩
    ⟨[(0, .Allocated [] 8192)], [], IgvmLoadedInfo.init, []⟩ 65536 1 0 8192 []
    (by decide) (by decide) (by decide)
  simpa using h

/-! ### C9: SnpVpContext records unconditionally, imports only for vp 0 -/

/-- C9: an SnpVpContext directive always overwrites the output record's
vmsa_gpa and VMSA snapshot and appends a Vmsa-typed GpaPages record, while the
page import into guest memory is issued only when vp_index is 0; hence after
two VP-context directives the record holds the second directive's VMSA even
when its index is nonzero. -/
theorem snp_vp_context_behavior (ctx : LoadCtx) (st : LoadSt)
    (gpa cmask vp_index : Nat) (vmsa : List Nat)
    (halign : gpa % HV_PAGE_SIZE = 0)
    (hsz : vmsa.length ≤ HV_PAGE_SIZE)
    (hmask : cmask &&& ctx.mask = ctx.mask) :
    (processDirective ctx st (.SnpVpContext gpa cmask vp_index vmsa) =
      .ok { st with
            loaded_info := { st.loaded_info with vmsa_gpa := gpa, vmsa := vmsa },
            sink :=
              if vp_index = 0 then
                st.sink ++ [.importPages (gpa / HV_PAGE_SIZE) 1 .VpContext
                  (vmsa ++ List.replicate (HV_PAGE_SIZE - vmsa.length) 0)]
              else st.sink,
            gpas := st.gpas ++
              [⟨gpa, IsolatedPageType.Vmsa.toU32, ISOLATED_PAGE_SIZE⟩] })
  ∧ (∀ gpa2 cmask2 vp2 vmsa2, gpa2 % HV_PAGE_SIZE = 0 →
      (vmsa2 : List Nat).length ≤ HV_PAGE_SIZE → cmask2 &&& ctx.mask = ctx.mask →
      finalVmsa (interpretDirectives ctx st
          [.SnpVpContext gpa cmask vp_index vmsa,
           .SnpVpContext gpa2 cmask2 vp2 vmsa2]) = some (vmsa2, gpa2)) := by
  have step : ∀ s g c v (vm : List Nat), g % HV_PAGE_SIZE = 0 →
      vm.length ≤ HV_PAGE_SIZE → c &&& ctx.mask = ctx.mask →
      processDirective ctx s (.SnpVpContext g c v vm) =
        .ok { s with
              loaded_info := { s.loaded_info with vmsa_gpa := g, vmsa := vm },
              sink :=
                if v = 0 then
                  s.sink ++ [.importPages (g / HV_PAGE_SIZE) 1 .VpContext
                    (vm ++ List.replicate (HV_PAGE_SIZE - vm.length) 0)]
                else s.sink,
              gpas := s.gpas ++
                [⟨g, IsolatedPageType.Vmsa.toU32, ISOLATED_PAGE_SIZE⟩] } := by
    intro s g c v vm ha hs hm
    have hlt : ¬(HV_PAGE_SIZE < vm.length) := Nat.not_lt.mpr hs
    simp [processDirective, Directive.compatibility_mask?, hm, ha, hlt]
  refine ⟨step st gpa cmask vp_index vmsa halign hsz hmask, ?_⟩
  intro gpa2 cmask2 vp2 vmsa2 ha2 hs2 hm2
  simp only [interpretDirectives, List.foldl_cons, List.foldl_nil, stepBind,
    step st gpa cmask vp_index vmsa halign hsz hmask]
  rw [step _ gpa2 cmask2 vp2 vmsa2 ha2 hs2 hm2]
  rfl

/-- Witness for C9: two VP-context directives, the second with index 5. -/
theorem snp_vp_context_behavior_witness :
    processDirective ⟨true, 1, 1, [0], []⟩ LoadSt.init
        (.SnpVpContext 4096 1 0 [9]) =
      .ok { LoadSt.init with
            loaded_info := { LoadSt.init.loaded_info with
              vmsa_gpa := 4096, vmsa := [9] },
            sink :=
              if (0 : Nat) = 0 then
                LoadSt.init.sink ++ [.importPages 1 1 .VpContext
                  ([9] ++ List.replicate (HV_PAGE_SIZE - 1) 0)]
              else LoadSt.init.sink,
            gpas := [⟨4096, IsolatedPageType.Vmsa.toU32, ISOLATED_PAGE_SIZE⟩] }
  ∧ finalVmsa (interpretDirectives ⟨true, 1, 1, [0], []⟩ LoadSt.init
        [.SnpVpContext 4096 1 0 [9], .SnpVpContext 8192 1 5 [7]]) =
      some ([7], 8192) := by
  have h := snp_vp_context_behavior ⟨true, 1, 1, [0], []⟩ LoadSt.init
    4096 1 0 [9] (by decide) (by decide) (by decide)
  exact ⟨h.1, h.2 8192 1 5 [7] (by decide) (by decide) (by decide)⟩

/-! ### Well-formedness of the commit-pipeline grouping -/

theorem groupsWF_nil : GroupsWF [] := by
  refine ⟨by simp, by simp, by simp⟩

theorem groupStep_wf (acc : List (List GpaPages)) (x : GpaPages)
    (h : GroupsWF acc) :
    GroupsWF (groupStep acc x) ∧ (groupStep acc x).flatten = acc.flatten ++ [x] := by
  obtain ⟨hne, huni, hch⟩ := h
  have wf_snoc : ∀ (a : List (List GpaPages)), GroupsWF a →
      (∀ b, a.getLast? = some b → gtype b ≠ x.page_type) →
      GroupsWF (a ++ [[x]]) ∧ (a ++ [[x]]).flatten = a.flatten ++ [x] := by
    intro a ⟨ane, auni, ach⟩ hb
    refine ⟨⟨?_, ?_, ?_⟩, by simp⟩
    · intro g hg
      rcases List.mem_append.mp hg with hg | hg
      · exact ane g hg
      · simp at hg; subst hg; simp
    · intro g hg y hy
      rcases List.mem_append.mp hg with hg | hg
      · exact auni g hg y hy
      · simp at hg; subst hg
        simp at hy; subst hy
        simp [gtype]
    · rw [List.chain'_append]
      refine ⟨ach, by simp, ?_⟩
      intro b hbmem c hc
      simp at hc; subst hc
      simpa [gtype] using hb b hbmem
  match hlast : acc.getLast? with
  | none =>
    have : acc = [] := List.getLast?_eq_none_iff.mp hlast
    subst this
    simp only [groupStep, hlast]
    exact wf_snoc [] groupsWF_nil (by simp)
  | some [] =>
    exact absurd rfl (hne [] (List.mem_of_getLast?_eq_some hlast))
  | some (y :: ys) =>
    have haccne : acc ≠ [] := by
      intro hE; rw [hE] at hlast; simp at hlast
    have hglast : acc.getLast haccne = y :: ys := by
      have := List.getLast?_eq_getLast acc haccne
      rw [hlast] at this; exact (Option.some.injEq _ _).mp this.symm
    have hacc : acc.dropLast ++ [y :: ys] = acc := by
      have := List.dropLast_concat_getLast haccne
      rwa [hglast] at this
    by_cases hty : y.page_type = x.page_type
    · simp only [groupStep, hlast, if_pos hty]
      have hch2 : (acc.dropLast ++ [y :: ys]).Chain'
          (fun g1 g2 => gtype g1 ≠ gtype g2) := by rw [hacc]; exact hch
      rw [List.chain'_append] at hch2
      refine ⟨⟨?_, ?_, ?_⟩, ?_⟩
      · intro g hg
        rcases List.mem_append.mp hg with hg | hg
        · exact hne g (List.dropLast_sublist acc |>.mem hg)
        · simp at hg; subst hg; simp
      · intro g hg z hz
        rcases List.mem_append.mp hg with hg | hg
        · exact huni g (List.dropLast_sublist acc |>.mem hg) z hz
        · simp at hg; subst hg
          have hgt : gtype (y :: (ys ++ [x])) = y.page_type := by simp [gtype]
          rw [hgt]
          rcases List.mem_cons.mp hz with hz | hz
          · subst hz; rfl
          · rcases List.mem_append.mp hz with hz | hz
            · have := huni (y :: ys) (List.mem_of_getLast?_eq_some hlast) z
                (by simp [hz])
              simpa [gtype] using this
            · simp at hz; subst hz; exact hty.symm
      · rw [List.chain'_append]
        refine ⟨hch2.1, by simp, ?_⟩
        intro b hbmem c hc
        simp at hc; subst hc
        have hbd := hch2.2.2 b hbmem (y :: ys) (by simp)
        simpa [gtype] using hbd
      · have h1 : (acc.dropLast ++ [(y :: ys) ++ [x]]).flatten =
            acc.dropLast.flatten ++ (y :: ys) ++ [x] := by
          simp [List.flatten_append]
        have h2 : acc.flatten ++ [x] =
            acc.dropLast.flatten ++ (y :: ys) ++ [x] := by
          conv_lhs => rw [← hacc]
          simp [List.flatten_append]
        rw [h1, h2]
    · simp only [groupStep, hlast, if_neg hty]
      refine wf_snoc acc ⟨hne, huni, hch⟩ ?_
      intro b hb
      rw [hlast] at hb
      have : b = y :: ys := ((Option.some.injEq _ _).mp hb).symm
      subst this
      simpa [gtype] using hty

theorem groupPages_wf_aux :
    ∀ (xs : List GpaPages) (acc : List (List GpaPages)), GroupsWF acc →
      GroupsWF (xs.foldl groupStep acc) ∧
      (xs.foldl groupStep acc).flatten = acc.flatten ++ xs := by
  intro xs
  induction xs with
  | nil => intro acc h; simpa using h
  | cons x xs ih =>
    intro acc h
    have hs := groupStep_wf acc x h
    have hrec := ih (groupStep acc x) hs.1
    refine ⟨hrec.1, ?_⟩
    rw [List.foldl_cons] at *
    rw [hrec.2, hs.2]
    simp

theorem groupPages_wf (s : List GpaPages) :
    GroupsWF (groupPages s) ∧ (groupPages s).flatten = s := by
  have := groupPages_wf_aux s [] groupsWF_nil
  simpa [groupPages] using this

/-! ### Properties of the commit-phase sort -/

theorem sortGpas_le_trans : ∀ (a b c : GpaPages),
    (fun a b : GpaPages => decide (a.gpa ≤ b.gpa)) a b →
    (fun a b : GpaPages => decide (a.gpa ≤ b.gpa)) b c →
    (fun a b : GpaPages => decide (a.gpa ≤ b.gpa)) a c := by
  intro a b c hab hbc
  simp only [decide_eq_true_eq] at *
  omega

theorem sortGpas_le_total : ∀ (a b : GpaPages),
    ((fun a b : GpaPages => decide (a.gpa ≤ b.gpa)) a b ||
     (fun a b : GpaPages => decide (a.gpa ≤ b.gpa)) b a) := by
  intro a b
  simp only [Bool.or_eq_true, decide_eq_true_eq]
  omega

theorem sortGpas_perm (l : List GpaPages) : (sortGpas l).Perm l :=
  List.mergeSort_perm l _

theorem sortGpas_pairwise (l : List GpaPages) :
    (sortGpas l).Pairwise (fun a b => a.gpa ≤ b.gpa) := by
  have h := List.sorted_mergeSort sortGpas_le_trans sortGpas_le_total l
  exact h.imp (fun hab => by simpa using hab)

theorem sortGpas_stable (l : List GpaPages) (v : Nat) :
    (sortGpas l).filter (fun r => r.gpa == v) =
      l.filter (fun r => r.gpa == v) := by
  have hpw : (l.filter (fun r => r.gpa == v)).Pairwise
      (fun a b : GpaPages => decide (a.gpa ≤ b.gpa)) := by
    apply List.pairwise_of_forall_mem_list
    intro a ha b hb
    have ha2 := (List.mem_filter.mp ha).2
    have hb2 := (List.mem_filter.mp hb).2
    simp only [beq_iff_eq] at ha2 hb2
    simp [ha2, hb2]
  have hsub : List.Sublist (l.filter (fun r => r.gpa == v)) (sortGpas l) :=
    List.sublist_mergeSort sortGpas_le_trans sortGpas_le_total hpw
      (List.filter_sublist l)
  have hsub2 : List.Sublist (l.filter (fun r => r.gpa == v))
      ((sortGpas l).filter (fun r => r.gpa == v)) := by
    have := hsub.filter (fun r => r.gpa == v)
    simpa [List.filter_filter] using this
  have hperm : ((sortGpas l).filter (fun r => r.gpa == v)).Perm
      (l.filter (fun r => r.gpa == v)) := (sortGpas_perm l).filter _
  exact (hsub2.eq_of_length hperm.length_eq.symm).symm

/-- Each group of `groupPages s` is a contiguous segment of `s`. -/
theorem mem_groupPages_segment (s : List GpaPages) (g : List GpaPages)
    (hg : g ∈ groupPages s) : ∃ pre post, pre ++ g ++ post = s := by
  obtain ⟨G1, G2, hG⟩ := List.append_of_mem hg
  refine ⟨G1.flatten, G2.flatten, ?_⟩
  have := (groupPages_wf s).2
  rw [hG] at this
  simpa [List.flatten_append] using this

/-- Each group of `groupPages s` inherits sortedness of `s` on the guest
address. -/
theorem mem_groupPages_pairwise (s : List GpaPages) (g : List GpaPages)
    (hs : s.Pairwise (fun a b => a.gpa ≤ b.gpa)) (hg : g ∈ groupPages s) :
    g.Pairwise (fun a b => a.gpa ≤ b.gpa) := by
  obtain ⟨pre, post, hseg⟩ := mem_groupPages_segment s g hg
  have hsub : List.Sublist g s := by
    rw [← hseg, List.append_assoc]
    exact ((List.sublist_append_left g post).trans
      (List.sublist_append_right pre _))
  exact hs.sublist hsub

/-! ### C2: the commit pipeline sorts then partitions into type runs -/

/-- C2: the commit pipeline sorts the accumulated records by guest physical
address, ascending and stable (a permutation, pairwise ordered, preserving the
relative order of records with equal address), and partitions the sorted
sequence into nonempty groups whose concatenation reproduces the sorted
sequence, such that every record of a group carries the group's page type and
consecutive groups carry different page types: a new group starts exactly at a
type change, and address adjacency plays no role. -/
theorem sort_and_group_spec (gpas : List GpaPages) :
    (sortGpas gpas).Perm gpas
  ∧ (sortGpas gpas).Pairwise (fun a b => a.gpa ≤ b.gpa)
  ∧ (∀ v, (sortGpas gpas).filter (fun r => r.gpa == v) =
        gpas.filter (fun r => r.gpa == v))
  ∧ (gpas_grouped gpas).flatten = sortGpas gpas
  ∧ (∀ g ∈ gpas_grouped gpas, g ≠ [])
  ∧ (∀ g ∈ gpas_grouped gpas, ∀ x ∈ g, x.page_type = gtype g)
  ∧ (gpas_grouped gpas).Chain' (fun g1 g2 => gtype g1 ≠ gtype g2) := by
  have hwf := groupPages_wf (sortGpas gpas)
  exact ⟨sortGpas_perm gpas, sortGpas_pairwise gpas, sortGpas_stable gpas,
    hwf.2, hwf.1.1, hwf.1.2.1, hwf.1.2.2⟩

/-- Witness for C2 on the five-record fixture of the spec (addresses
1..6 times the page size, types 10,10,20,20,10): the partition has the groups
of the spec's fixture and its middle group is reproduced concretely. -/
theorem sort_and_group_spec_witness :
    (gpas_grouped [⟨4096, 10, 4096⟩, ⟨8192, 10, 4096⟩, ⟨12288, 20, 4096⟩,
        ⟨20480, 20, 4096⟩, ⟨24576, 10, 4096⟩]).flatten =
      sortGpas [⟨4096, 10, 4096⟩, ⟨8192, 10, 4096⟩, ⟨12288, 20, 4096⟩,
        ⟨20480, 20, 4096⟩, ⟨24576, 10, 4096⟩]
  ∧ ([⟨12288, 20, 4096⟩, ⟨20480, 20, 4096⟩] : List GpaPages) ≠ []
  ∧ (⟨20480, 20, 4096⟩ : GpaPages).page_type =
      gtype [⟨12288, 20, 4096⟩, ⟨20480, 20, 4096⟩] := by
  have h := sort_and_group_spec [⟨4096, 10, 4096⟩, ⟨8192, 10, 4096⟩,
    ⟨12288, 20, 4096⟩, ⟨20480, 20, 4096⟩, ⟨24576, 10, 4096⟩]
  have hsort : sortGpas [⟨4096, 10, 4096⟩, ⟨8192, 10, 4096⟩, ⟨12288, 20, 4096⟩,
      ⟨20480, 20, 4096⟩, ⟨24576, 10, 4096⟩] =
      [⟨4096, 10, 4096⟩, ⟨8192, 10, 4096⟩, ⟨12288, 20, 4096⟩,
       ⟨20480, 20, 4096⟩, ⟨24576, 10, 4096⟩] := by
    unfold sortGpas
    exact List.mergeSort_of_sorted (by decide)
  have hmem : [⟨12288, 20, 4096⟩, ⟨20480, 20, 4096⟩] ∈
      gpas_grouped [⟨4096, 10, 4096⟩, ⟨8192, 10, 4096⟩, ⟨12288, 20, 4096⟩,
        ⟨20480, 20, 4096⟩, ⟨24576, 10, 4096⟩] := by
    unfold gpas_grouped
    rw [hsort]
    decide
  exact ⟨h.2.2.2.1,
    h.2.2.2.2.1 [⟨12288, 20, 4096⟩, ⟨20480, 20, 4096⟩] hmem,
    h.2.2.2.2.2.1 [⟨12288, 20, 4096⟩, ⟨20480, 20, 4096⟩] hmem
      ⟨20480, 20, 4096⟩ (by decide)⟩

/-! ### C10: each batched import call is sorted and type-uniform -/

/-- C10: for every group the commit pipeline builds, the page-frame-number
list passed to the batched import call is in non-decreasing order, and every
record of the group carries exactly the page type passed to that call, which
is the type of the group's first record. -/
theorem import_call_sorted_uniform (gpas : List GpaPages) :
    ∀ g ∈ gpas_grouped gpas,
      (g.map (fun r => r.gpa >>> ISOLATED_PAGE_SHIFT)).Pairwise (· ≤ ·)
    ∧ (∀ r ∈ g, r.page_type = gtype g)
    ∧ commitImportEvent g = .importIsolatedPages (gtype g) ISOLATED_PAGE_SIZE
        (g.map (fun r => r.gpa >>> ISOLATED_PAGE_SHIFT)) := by
  intro g hg
  have hpw := mem_groupPages_pairwise (sortGpas gpas) g (sortGpas_pairwise gpas) hg
  refine ⟨?_, (groupPages_wf (sortGpas gpas)).1.2.1 g hg, rfl⟩
  rw [List.pairwise_map]
  exact hpw.imp (fun hab => by
    simp only [Nat.shiftRight_eq_div_pow]
    exact Nat.div_le_div_right hab)

/-- Witness for C10 on the first group of a concrete two-type commit list. -/
theorem import_call_sorted_uniform_witness :
    (([⟨4096, 4, 4096⟩, ⟨8192, 4, 4096⟩] : List GpaPages).map
        (fun r => r.gpa >>> ISOLATED_PAGE_SHIFT)).Pairwise (· ≤ ·)
  ∧ (∀ r ∈ ([⟨4096, 4, 4096⟩, ⟨8192, 4, 4096⟩] : List GpaPages),
      r.page_type = gtype [⟨4096, 4, 4096⟩, ⟨8192, 4, 4096⟩])
  ∧ commitImportEvent [⟨4096, 4, 4096⟩, ⟨8192, 4, 4096⟩] =
      .importIsolatedPages (gtype [⟨4096, 4, 4096⟩, ⟨8192, 4, 4096⟩])
        ISOLATED_PAGE_SIZE
        (([⟨4096, 4, 4096⟩, ⟨8192, 4, 4096⟩] : List GpaPages).map
          (fun r => r.gpa >>> ISOLATED_PAGE_SHIFT)) := by
  have hsort : sortGpas [⟨4096, 4, 4096⟩, ⟨8192, 4, 4096⟩, ⟨12288, 5, 4096⟩] =
      [⟨4096, 4, 4096⟩, ⟨8192, 4, 4096⟩, ⟨12288, 5, 4096⟩] := by
    unfold sortGpas
    exact List.mergeSort_of_sorted (by decide)
  have hmem : [⟨4096, 4, 4096⟩, ⟨8192, 4, 4096⟩] ∈
      gpas_grouped [⟨4096, 4, 4096⟩, ⟨8192, 4, 4096⟩, ⟨12288, 5, 4096⟩] := by
    unfold gpas_grouped
    rw [hsort]
    decide
  exact import_call_sorted_uniform [⟨4096, 4, 4096⟩, ⟨8192, 4, 4096⟩,
    ⟨12288, 5, 4096⟩] [⟨4096, 4, 4096⟩, ⟨8192, 4, 4096⟩] hmem

/-! ### C1: ordering of the commit-phase calls -/

/-- Positional shape of the commit trace: import calls occupy exactly the
first `(gpas_grouped gpas).length` slots, the register writes the next `n`
slots (vCPU `i - (gpas_grouped gpas).length` in slot `i`), and the finalize
call the single last slot. -/
theorem commitTrace_getElem_shape (gpas : List GpaPages) (n : Nat)
    (idb : SnpIdBlock) (hd : List Nat) (i : Nat) (e : CommitEvent)
    (h : (commitTrace gpas n idb hd)[i]? = some e) :
    (i < (gpas_grouped gpas).length ∧ e.isImport = true ∧
      e.isSevControlWrite = false ∧ e.isComplete = false)
  ∨ ((gpas_grouped gpas).length ≤ i ∧ i < (gpas_grouped gpas).length + n ∧
      e = .setSevControlRegister (i - (gpas_grouped gpas).length) 0)
  ∨ (i = (gpas_grouped gpas).length + n ∧
      e = .completeIsolatedImport idb hd 1) := by
  have hlen : (commitTrace gpas n idb hd).length =
      (gpas_grouped gpas).length + n + 1 := by
    simp [commitTrace]
    omega
  have hi : i < (gpas_grouped gpas).length + n + 1 := by
    rw [← hlen]
    exact (List.getElem?_eq_some.mp h).1
  rw [commitTrace] at h
  by_cases h1 : i < (gpas_grouped gpas).length
  · left
    rw [List.getElem?_append_left (by simp; omega),
      List.getElem?_append_left (by simpa using h1), List.getElem?_map] at h
    cases how : (gpas_grouped gpas)[i]? with
    | none => rw [how] at h; simp at h
    | some g =>
      rw [how] at h
      simp at h
      refine ⟨h1, ?_⟩
      rw [← h]
      simp [commitImportEvent, CommitEvent.isImport,
        CommitEvent.isSevControlWrite, CommitEvent.isComplete]
  · by_cases h2 : i < (gpas_grouped gpas).length + n
    · right; left
      rw [List.getElem?_append_left (by simp; omega),
        List.getElem?_append_right (by simp; omega), List.getElem?_map,
        List.getElem?_range (by simp; omega)] at h
      simp at h
      refine ⟨Nat.le_of_not_lt h1, h2, ?_⟩
      rw [← h]
    · right; right
      have hieq : i = (gpas_grouped gpas).length + n := by omega
      refine ⟨hieq, ?_⟩
      rw [List.getElem?_append_right (by simp; omega)] at h
      have hz : i - (List.map commitImportEvent (gpas_grouped gpas) ++
          List.map (fun vp => CommitEvent.setSevControlRegister vp 0)
            (List.range n)).length = 0 := by
        simp; omega
      rw [hz] at h
      simp at h
      exact h.symm

/-- C1: for every directive stream whose interpretation reaches the commit
phase, every batched import call precedes every isolation-control register
write in the commit trace, every register write precedes the finalize call,
and by the time the finalize call is issued the register has been written on
every one of the `proc_count` virtual processors. -/
theorem commit_phase_ordering (ctx : LoadCtx) (ds : List Directive)
    (hd : List Nat) (tr : List CommitEvent)
    (h : loadCommitTrace ctx ds hd = some tr) :
    (∀ (i j : Nat) (e f : CommitEvent), tr[i]? = some e → tr[j]? = some f →
        e.isImport = true → f.isSevControlWrite = true → i < j)
  ∧ (∀ (i j : Nat) (e f : CommitEvent), tr[i]? = some e → tr[j]? = some f →
        e.isSevControlWrite = true → f.isComplete = true → i < j)
  ∧ (∀ (j : Nat) (f : CommitEvent), tr[j]? = some f → f.isComplete = true →
        ∀ vp, vp < ctx.proc_count →
          ∃ i, i < j ∧ tr[i]? = some (.setSevControlRegister vp 0)) := by
  rw [loadCommitTrace] at h
  cases hrun : interpretDirectives ctx LoadSt.init ds with
  | err e s => rw [hrun] at h; simp at h
  | fatal => rw [hrun] at h; simp at h
  | ok st =>
    rw [hrun] at h
    simp only [Option.some.injEq] at h
    subst h
    refine ⟨?_, ?_, ?_⟩
    · intro i j e f he hf himp hsev
      have se := commitTrace_getElem_shape st.gpas ctx.proc_count st.loaded_info.snp_id_block hd i e he
      have sf := commitTrace_getElem_shape st.gpas ctx.proc_count st.loaded_info.snp_id_block hd j f hf
      rcases se with ⟨hi, _⟩ | ⟨_, _, hee⟩ | ⟨_, hee⟩
      · rcases sf with ⟨_, _, hfs, _⟩ | ⟨hj, _, _⟩ | ⟨hj, hfe⟩
        · rw [hfs] at hsev; exact absurd hsev (by simp)
        · omega
        · subst hfe; simp [CommitEvent.isSevControlWrite] at hsev
      · rw [hee] at himp; simp [CommitEvent.isImport] at himp
      · rw [hee] at himp; simp [CommitEvent.isImport] at himp
    · intro i j e f he hf hsev hcomp
      have se := commitTrace_getElem_shape st.gpas ctx.proc_count st.loaded_info.snp_id_block hd i e he
      have sf := commitTrace_getElem_shape st.gpas ctx.proc_count st.loaded_info.snp_id_block hd j f hf
      rcases se with ⟨_, _, hes, _⟩ | ⟨_, hi, _⟩ | ⟨_, hee⟩
      · rw [hes] at hsev; exact absurd hsev (by simp)
      · rcases sf with ⟨_, _, _, hfc⟩ | ⟨_, _, hfe⟩ | ⟨hj, _⟩
        · rw [hfc] at hcomp; exact absurd hcomp (by simp)
        · rw [hfe] at hcomp; simp [CommitEvent.isComplete] at hcomp
        · omega
      · rw [hee] at hsev; simp [CommitEvent.isSevControlWrite] at hsev
    · intro j f hf hcomp vp hvp
      have sf := commitTrace_getElem_shape st.gpas ctx.proc_count st.loaded_info.snp_id_block hd j f hf
      rcases sf with ⟨_, _, _, hfc⟩ | ⟨_, _, hfe⟩ | ⟨hj, _⟩
      · rw [hfc] at hcomp; exact absurd hcomp (by simp)
      · rw [hfe] at hcomp; simp [CommitEvent.isComplete] at hcomp
      · refine ⟨(gpas_grouped st.gpas).length + vp, by omega, ?_⟩
        rw [commitTrace, List.getElem?_append_left (by simp; omega),
          List.getElem?_append_right (by simp), List.getElem?_map,
          List.getElem?_range (by simp; omega)]
        simp

/-- Witness for C1: a stream with one measured page on one vCPU; the trace is
import, register write, finalize, and the ordering theorem applies at its
concrete indices. -/
theorem commit_phase_ordering_witness :
    ∃ tr, loadCommitTrace ⟨true, 1, 1, [0], []⟩ [.PageData 4096 1 false .NORMAL []] [] =
        some tr
      ∧ (0 : Nat) < 1 ∧ (1 : Nat) < 2 := by
  have htr : loadCommitTrace ⟨true, 1, 1, [0], []⟩
      [.PageData 4096 1 false .NORMAL []] [] =
      some (commitTrace [⟨4096, 1, 4096⟩] 1 SnpIdBlock.zeroed []) := by
    rw [loadCommitTrace]
    rw [show interpretDirectives ⟨true, 1, 1, [0], []⟩ LoadSt.init
        [.PageData 4096 1 false .NORMAL []] =
        .ok ⟨[], [⟨4096, 1, 4096⟩], IgvmLoadedInfo.init,
          [.importPages 1 1 .Exclusive []]⟩ from rfl]
    rfl
  have htr2 : commitTrace [⟨4096, 1, 4096⟩] 1 SnpIdBlock.zeroed [] =
      [.importIsolatedPages 1 ISOLATED_PAGE_SIZE [1],
       .setSevControlRegister 0 0,
       .completeIsolatedImport SnpIdBlock.zeroed [] 1] := by
    rw [commitTrace, gpas_grouped, sortGpas, List.mergeSort_singleton]
    rfl
  refine ⟨_, htr, ?_, ?_⟩
  · exact (commit_phase_ordering ⟨true, 1, 1, [0], []⟩
      [.PageData 4096 1 false .NORMAL []] [] _ htr).1 0 1
      (.importIsolatedPages 1 ISOLATED_PAGE_SIZE [1]) (.setSevControlRegister 0 0)
      (by rw [htr2]; rfl) (by rw [htr2]; rfl) (by decide) (by decide)
  · exact (commit_phase_ordering ⟨true, 1, 1, [0], []⟩
      [.PageData 4096 1 false .NORMAL []] [] _ htr).2.1 1 2
      (.setSevControlRegister 0 0) (.completeIsolatedImport SnpIdBlock.zeroed [] 1)
      (by rw [htr2]; rfl) (by rw [htr2]; rfl) (by decide) (by decide)

/-! ### C5: sequences of in-bound fills -/

theorem fillBuf_length (data : List Nat) (off : Nat) (bs : List Nat) :
    (fillBuf data off bs).length =
      if data.length < off + bs.length then off + bs.length
      else data.length := by
  by_cases hd : data.length < off + bs.length
  · rw [if_pos hd]
    simp only [fillBuf, if_pos hd, write_bytes, List.length_append,
      List.length_take, List.length_replicate, List.length_drop]
    omega
  · rw [if_neg hd]
    simp only [fillBuf, if_neg hd, write_bytes, List.length_append,
      List.length_take, List.length_drop]
    omega

theorem fillBuf_slice (data : List Nat) (off : Nat) (bs : List Nat) :
    ((fillBuf data off bs).drop off).take bs.length = bs := by
  have hg : off ≤ (if data.length < off + bs.length then
      data ++ List.replicate (off + bs.length - data.length) 0
    else data).length := by
    by_cases hd : data.length < off + bs.length <;> simp [hd] <;> omega
  rw [fillBuf, write_bytes, List.append_assoc,
    List.drop_left' (by simp [List.length_take]; omega),
    List.take_left' rfl]

theorem fillBuf_gap (data : List Nat) (off : Nat) (bs : List Nat) (p : Nat)
    (hp1 : data.length ≤ p) (hp2 : p < off) :
    (fillBuf data off bs)[p]? = some 0 := by
  have hd : data.length < off + bs.length := by omega
  have hg : off ≤ (data ++ List.replicate (off + bs.length - data.length) 0).length := by
    simp; omega
  rw [fillBuf, if_pos hd, write_bytes, List.append_assoc,
    List.getElem?_append_left (by simp [List.length_take]; omega),
    List.getElem?_take_of_lt (by omega),
    List.getElem?_append_right (by omega), List.getElem?_replicate,
    if_pos (by omega)]

theorem import_parameter_ok (m : List (Nat × ParameterAreaState))
    (idx off : Nat) (bs data : List Nat) (max_size : Nat)
    (hlook : lookupArea m idx = some (.Allocated data max_size))
    (hfit : off + bs.length ≤ max_size) :
    import_parameter m idx off bs =
      .ok (setArea m idx (.Allocated (fillBuf data off bs) max_size)) := by
  simp [import_parameter, hlook, Nat.not_lt.mpr hfit, fillBuf]

/-- C5: running any sequence of fills within the declared bound on one
Allocated area succeeds, keeps the buffer within max_size, and afterwards the
byte range of the last fill holds exactly the bytes it wrote, with any gap the
last growth created (between the previous buffer end and the write offset)
zero-filled. -/
theorem fills_sequence_spec (areas : List (Nat × ParameterAreaState))
    (idx : Nat) (data0 : List Nat) (max_size : Nat)
    (fills : List (Nat × List Nat))
    (h0 : lookupArea areas idx = some (.Allocated data0 max_size))
    (hlen0 : data0.length ≤ max_size)
    (hfit : ∀ f ∈ fills, f.1 + f.2.length ≤ max_size) :
    ∃ d, runFills areas idx fills = .ok (setArea areas idx (.Allocated d max_size))
      ∧ d.length ≤ max_size
      ∧ (∀ off bs, fills.getLast? = some (off, bs) →
          ((d.drop off).take bs.length = bs
           ∧ ∃ dPrev, runFills areas idx fills.dropLast =
                .ok (setArea areas idx (.Allocated dPrev max_size))
              ∧ ∀ p, dPrev.length ≤ p → p < off → d[p]? = some 0)) := by
  induction fills using List.reverseRecOn with
  | nil =>
    refine ⟨data0, ?_, hlen0, ?_⟩
    · rw [runFills, List.foldl_nil, setArea_eq_of_lookup areas idx _ h0]
    · intro off bs h
      simp at h
  | append_singleton fs f ih =>
    obtain ⟨off, bs⟩ := f
    obtain ⟨dPrev, hrun, hdlen, -⟩ :=
      ih (fun g hg => hfit g (List.mem_append.mpr (Or.inl hg)))
    have hfitf : off + bs.length ≤ max_size := by
      simpa using hfit (off, bs) (List.mem_append.mpr (Or.inr (by simp)))
    have hstep : runFills areas idx (fs ++ [(off, bs)]) =
        import_parameter (setArea areas idx (.Allocated dPrev max_size)) idx off bs := by
      rw [runFills, List.foldl_append, ← runFills, hrun]
      rfl
    have himp := import_parameter_ok
      (setArea areas idx (.Allocated dPrev max_size)) idx off bs dPrev max_size
      (lookupArea_setArea_self areas idx _) hfitf
    refine ⟨fillBuf dPrev off bs, ?_, ?_, ?_⟩
    · rw [hstep, himp, setArea_setArea]
    · rw [fillBuf_length]
      split_ifs <;> omega
    · intro off2 bs2 hlast
      rw [List.getLast?_concat] at hlast
      obtain ⟨h1, h2⟩ : off2 = off ∧ bs2 = bs := by
        have hp := (Option.some.injEq _ _).mp hlast
        exact ⟨(congrArg Prod.fst hp).symm, (congrArg Prod.snd hp).symm⟩
      rw [h1, h2]
      refine ⟨fillBuf_slice dPrev off bs, dPrev, ?_, ?_⟩
      · rw [List.dropLast_concat]
        exact hrun
      · intro p hp1 hp2
        exact fillBuf_gap dPrev off bs p hp1 hp2

/-- Witness for C5: two fills into a fresh 16-byte area, the second creating a
zero-filled gap. -/
theorem fills_sequence_spec_witness :
    ∃ d, runFills [(0, .Allocated [] 16)] 0 [(0, [1, 2]), (4, [9])] =
        .ok (setArea [(0, .Allocated [] 16)] 0 (.Allocated d 16))
      ∧ d.length ≤ 16
      ∧ (∀ off bs, ([(0, [1, 2]), (4, [9])] : List (Nat × List Nat)).getLast? =
            some (off, bs) →
          ((d.drop off).take bs.length = bs
           ∧ ∃ dPrev, runFills [(0, .Allocated [] 16)] 0
                ([(0, [1, 2]), (4, [9])] : List (Nat × List Nat)).dropLast =
                .ok (setArea [(0, .Allocated [] 16)] 0 (.Allocated dPrev 16))
              ∧ ∀ p, dPrev.length ≤ p → p < off → d[p]? = some 0)) :=
  fills_sequence_spec [(0, .Allocated [] 16)] 0 [] 16 [(0, [1, 2]), (4, [9])]
    (by decide) (by decide) (by decide)
